import Mathlib

/-!
Verification of the WhatsApp bridge (whatsapp-mcp/whatsapp-bridge/main.go).

Shallow embedding notes:

* The SQLite database opened by NewMessageStore (main.go:50, DSN
  "file:store/messages.db?_foreign_keys=on") is modelled as a pair of row
  lists, one per table.  INSERT OR REPLACE (main.go:93 and main.go:119) is
  modelled as "delete every row with the same primary key, then append the
  new row", which is SQLite's REPLACE algorithm.
* Because the DSN turns foreign-key enforcement on and the messages table
  declares FOREIGN KEY (chat_jid) REFERENCES chats(jid) (main.go:72), an
  insert into messages whose chat_jid has no chats row fails with a
  constraint error and writes nothing.  StoreMessage therefore returns a
  success flag: false models db.Exec returning a non-nil error.
* time.Time values are modelled as natural numbers (seconds).  All writes
  format timestamps with the fixed layout "2006-01-02 15:04:05"
  (main.go:91, main.go:112); for that layout formatting is injective and
  order preserving and parsing it back always succeeds, so the string
  round-trip is modelled as the identity on the tick count.
* Go proto getters are nil-safe and return "" / 0 for unset optional
  fields; optional proto fields are modelled as Option values and the
  getters as getD.
* Logging, stdout printing and the synced-message counter do not affect
  the store and are omitted.
-/

/-- Timestamps: time.Time modelled as a tick count (seconds). -/
abbrev Timestamp := Nat

/-- types.JID, restricted to the user and server parts the bridge uses. -/
structure Jid where
  user : String
  server : String
deriving DecidableEq, Repr

/-- types.JID.String(): "user@server", or just the server when the user
part is empty. -/
def Jid.jidString (j : Jid) : String :=
  if j.user = "" then j.server else j.user ++ "@" ++ j.server

/-- A row of the chats table (jid TEXT PRIMARY KEY, name TEXT,
last_message_time TIMESTAMP), main.go:57-61. -/
structure ChatRow where
  jid : String
  name : String
  lastMessageTime : Timestamp
deriving DecidableEq, Repr

/-- A row of the messages table (PRIMARY KEY (id, chat_jid)),
main.go:63-73. -/
structure MsgRow where
  id : String
  chatJid : String
  sender : String
  content : String
  timestamp : Timestamp
  isFromMe : Bool
  mediaType : String
deriving DecidableEq, Repr

/-- The persistent state behind store/messages.db: both tables. -/
structure MessageStore where
  chats : List ChatRow
  messages : List MsgRow
deriving DecidableEq, Repr

/-- The freshly created database: both tables empty (main.go:56-74 only
creates the tables). -/
def emptyStore : MessageStore := ⟨[], []⟩

/-- SELECT of a chats row by primary key. -/
def lookupChat (chats : List ChatRow) (jid : String) : Option ChatRow :=
  chats.find? (fun r => r.jid == jid)

/-- MessageStore.StoreChat (main.go:89-97): INSERT OR REPLACE INTO chats
keyed by jid. -/
def StoreChat (s : MessageStore) (jid name : String)
    (lastMessageTime : Timestamp) : MessageStore :=
  { s with chats :=
      s.chats.filter (fun r => !(r.jid == jid)) ++ [⟨jid, name, lastMessageTime⟩] }

/-- Primary-key predicate for the messages table. -/
def msgKeyIs (id chatJid : String) (r : MsgRow) : Bool :=
  r.id == id && r.chatJid == chatJid

/-- MessageStore.StoreMessage (main.go:100-125): returns early with
success when content is empty; defaults an empty sender to "unknown";
otherwise INSERT OR REPLACE INTO messages keyed by (id, chat_jid).  The
returned Bool is true when db.Exec returned no error; with
_foreign_keys=on the insert fails (and writes nothing) when no chats row
with this chat_jid exists. -/
def StoreMessage (s : MessageStore) (id chatJID sender content : String)
    (timestamp : Timestamp) (isFromMe : Bool) (mediaType : String) :
    MessageStore × Bool :=
  if content = "" then (s, true)
  else
    let sender := if sender = "" then "unknown" else sender
    if (lookupChat s.chats chatJID).isSome then
      ({ s with messages :=
          s.messages.filter (fun r => !(msgKeyIs id chatJID r)) ++
            [⟨id, chatJID, sender, content, timestamp, isFromMe, mediaType⟩] },
       true)
    else (s, false)

/-! ### List helper lemmas for the REPLACE algorithm -/

theorem filter_not_then_filter {α : Type} (p : α → Bool) (l : List α) :
    (l.filter (fun a => !(p a))).filter p = [] := by
  induction l with
  | nil => rfl
  | cons x xs ih =>
    by_cases h : p x = true
    · simp [List.filter, h, ih]
    · simp only [Bool.not_eq_true] at h
      simp [List.filter, h, ih]

theorem filter_not_idem {α : Type} (p : α → Bool) (l : List α) :
    (l.filter (fun a => !(p a))).filter (fun a => !(p a)) =
      l.filter (fun a => !(p a)) := by
  induction l with
  | nil => rfl
  | cons x xs ih =>
    by_cases h : p x = true
    · simp [List.filter, h, ih]
    · simp only [Bool.not_eq_true] at h
      simp [List.filter, h, ih]

/-! ### C1 / C4: StoreMessage behaviour -/

/-- C4: For every call to upsertMessage with empty text, the call returns
success and writes nothing: the message table is unchanged and no error is
produced, regardless of the other arguments (main.go:102-104 returns nil
before touching the database). -/
theorem c4_storeMessage_empty_text_noop
    (s : MessageStore) (id chatJID sender : String) (timestamp : Timestamp)
    (isFromMe : Bool) (mediaType : String) :
    StoreMessage s id chatJID sender "" timestamp isFromMe mediaType
      = (s, true) := by
  simp [StoreMessage]

/-- C1: applying StoreMessage twice with the identical (id, chat_jid) key
and identical fields leaves the store in exactly the same state (and with
the same result) as applying it once; and whenever the write can happen at
all (non-empty text; the chats row exists, as the foreign key requires),
the store afterwards holds exactly one messages row for that key, carrying
the delivered content (last-write-wins, duplicates are not errors). -/
theorem c1_storeMessage_idempotent
    (s : MessageStore) (id chatJID sender content : String)
    (timestamp : Timestamp) (isFromMe : Bool) (mediaType : String) :
    (StoreMessage (StoreMessage s id chatJID sender content timestamp
        isFromMe mediaType).1 id chatJID sender content timestamp isFromMe
        mediaType
      = StoreMessage s id chatJID sender content timestamp isFromMe
          mediaType)
    ∧ (content ≠ "" → (lookupChat s.chats chatJID).isSome →
        ((StoreMessage s id chatJID sender content timestamp isFromMe
            mediaType).1.messages.filter (msgKeyIs id chatJID))
          = [⟨id, chatJID, (if sender = "" then "unknown" else sender),
              content, timestamp, isFromMe, mediaType⟩]) := by
  constructor
  · by_cases hc : content = ""
    · simp [StoreMessage, hc]
    · by_cases hl : (lookupChat s.chats chatJID).isSome
      · have hkey : msgKeyIs id chatJID
            ⟨id, chatJID, (if sender = "" then "unknown" else sender),
              content, timestamp, isFromMe, mediaType⟩ = true := by
          simp [msgKeyIs]
        simp only [StoreMessage, hc, if_neg hc, lookupChat] at *
        simp only [hl, if_pos hl]
        simp [List.filter_append, hkey, filter_not_idem, hl]
      · simp [StoreMessage, hc, hl]
  · intro hc hl
    have hkey : msgKeyIs id chatJID
        ⟨id, chatJID, (if sender = "" then "unknown" else sender),
          content, timestamp, isFromMe, mediaType⟩ = true := by
      simp [msgKeyIs]
    simp [StoreMessage, hc, hl, List.filter_append, hkey,
      filter_not_then_filter]

/-- Witness store for C1: a chats row for "123@g.us" already exists. -/
def witnessStoreC1 : MessageStore :=
  ⟨[⟨"123@g.us", "Signals", 5⟩], []⟩

/-- C1 witness: the redelivery scenario of the spec at concrete values. -/
theorem c1_storeMessage_idempotent_witness :
    (StoreMessage (StoreMessage witnessStoreC1 "m1" "123@g.us" "555"
        "buy 10" 7 false "text").1 "m1" "123@g.us" "555" "buy 10" 7 false
        "text"
      = StoreMessage witnessStoreC1 "m1" "123@g.us" "555" "buy 10" 7 false
          "text")
    ∧ ((StoreMessage witnessStoreC1 "m1" "123@g.us" "555" "buy 10" 7 false
          "text").1.messages.filter (msgKeyIs "m1" "123@g.us"))
        = [⟨"m1", "123@g.us", "555", "buy 10", 7, false, "text"⟩] := by
  refine ⟨(c1_storeMessage_idempotent witnessStoreC1 "m1" "123@g.us" "555"
    "buy 10" 7 false "text").1, ?_⟩
  have h := (c1_storeMessage_idempotent witnessStoreC1 "m1" "123@g.us"
    "555" "buy 10" 7 false "text").2 (by decide) (by decide)
  simpa using h

/-! ### Content extraction (main.go:188-202) -/

/-- waProto.ExtendedTextMessage, restricted to the Text field the bridge
reads. -/
structure ExtendedTextMessage where
  text : Option String
deriving DecidableEq, Repr

/-- ExtendedTextMessage.GetText(): "" when the optional field is unset. -/
def ExtendedTextMessage.getText (e : ExtendedTextMessage) : String :=
  e.text.getD ""

/-- waProto.Message, restricted to the fields the bridge reads.  The four
media fields record only the presence of the optional payload (the bridge
only compares the getters against nil, main.go:699-706). -/
structure WaMsg where
  conversation : Option String
  extendedTextMessage : Option ExtendedTextMessage
  imageMessage : Bool
  videoMessage : Bool
  audioMessage : Bool
  documentMessage : Bool
deriving DecidableEq, Repr

/-- Message.GetConversation(): "" when unset. -/
def WaMsg.getConversation (m : WaMsg) : String :=
  m.conversation.getD ""

/-- extractTextContent (main.go:188-202); also the inlined copy of the
same logic in handleHistorySync (main.go:571-578).  The argument is
Option because the proto pointer may be nil. -/
def extractTextContent (msg : Option WaMsg) : String :=
  match msg with
  | none => ""
  | some m =>
    if m.getConversation ≠ "" then m.getConversation
    else
      match m.extendedTextMessage with
      | some extendedText => extendedText.getText
      | none => ""

/-! ### Chat identity resolution (GetChatName, main.go:440-520) -/

/-- The external collaborators GetChatName consults: the protocol
session's group metadata (client.GetGroupInfo: none models a lookup
error, some n a successful lookup whose Name field is n), its contact
directory (client.Store.Contacts.GetContact: none models an error, some f
a contact whose FullName is f), and the logged-in account's own user part
(client.Store.ID.User, used by handleHistorySync). -/
structure Env where
  groupInfo : Jid → Option String
  contactFullName : Jid → Option String
  ownUser : String

/-- The two optional string fields the reflection probe of GetChatName
(main.go:463-478) pulls out of a history-sync conversation value:
DisplayName and Name. -/
structure ConvHint where
  displayName : Option String
  name : Option String
deriving DecidableEq, Repr

/-- The hint extraction of main.go:480-485: DisplayName wins when present
and non-empty, else Name when present and non-empty, else no hint.  A nil
field pointer and a present-but-empty string fall through identically. -/
def hintedName (conversation : Option ConvHint) : String :=
  match conversation with
  | none => ""
  | some h =>
    let d := h.displayName.getD ""
    let n := h.name.getD ""
    if d ≠ "" then d else if n ≠ "" then n else ""

/-- The no-stored-name part of GetChatName (main.go:451-519): the group
branch (server "g.us") tries the sync hint, then the live group-info
lookup, then "Group " plus the local part; the contact branch tries the
contact's full name, then the sender, then the local part. -/
def GetChatNameFresh (env : Env) (jid : Jid) (conversation : Option ConvHint)
    (sender : String) : String :=
  if jid.server = "g.us" then
    let name := hintedName conversation
    if name = "" then
      match env.groupInfo jid with
      | some g => if g ≠ "" then g else "Group " ++ jid.user
      | none => "Group " ++ jid.user
    else name
  else
    match env.contactFullName jid with
    | some f =>
      if f ≠ "" then f
      else if sender ≠ "" then sender else jid.user
    | none => if sender ≠ "" then sender else jid.user

/-- GetChatName (main.go:440-520): the stored-name query of main.go:443
succeeds exactly when a chats row for chatJID exists; a non-empty stored
name short-circuits the resolution. -/
def GetChatName (env : Env) (s : MessageStore) (jid : Jid) (chatJID : String)
    (conversation : Option ConvHint) (sender : String) : String :=
  match lookupChat s.chats chatJID with
  | some row =>
    if row.name ≠ "" then row.name
    else GetChatNameFresh env jid conversation sender
  | none => GetChatNameFresh env jid conversation sender

theorem group_fallback_ne_empty (s : String) : "Group " ++ s ≠ "" := by
  intro h
  have hlen := congrArg String.length h
  rw [String.length_append] at hlen
  have h6 : ("Group " : String).length = 6 := rfl
  have h0 : ("" : String).length = 0 := rfl
  rw [h6, h0] at hlen
  omega

/-- C5 counterexample: the claim promises a non-empty result whenever no
name is stored, but for a direct-contact address whose local part is
empty, with no contact record and an empty sender fallback, GetChatName
returns the empty string (main.go:513 falls back to jid.User, which is
empty here). -/
theorem c5_getChatName_counterexample :
    GetChatName ⟨fun _ => none, fun _ => none, "me"⟩ emptyStore
      ⟨"", "s.whatsapp.net"⟩ "s.whatsapp.net" none "" = "" := by
  rfl

/-- C5 (amended): a non-empty stored name is returned unchanged whatever
the hints; with no stored non-empty name the result follows the fixed
fallback chain (group: hint, then group-info, then "Group " + local part;
contact: full name, then sender, then local part), and it is non-empty in
the group branch always, and in the contact branch whenever the address's
local part is non-empty (or a contact name or sender is available). -/
theorem c5_getChatName_priority (env : Env) (s : MessageStore) (jid : Jid)
    (chatJID : String) (conversation : Option ConvHint) (sender : String) :
    (∀ row, lookupChat s.chats chatJID = some row → row.name ≠ "" →
      GetChatName env s jid chatJID conversation sender = row.name)
    ∧ ((∀ row, lookupChat s.chats chatJID = some row → row.name = "") →
      GetChatName env s jid chatJID conversation sender
        = GetChatNameFresh env jid conversation sender)
    ∧ (jid.server = "g.us" →
      GetChatNameFresh env jid conversation sender ≠ ""
      ∧ (hintedName conversation = "" → env.groupInfo jid = none →
          GetChatNameFresh env jid conversation sender
            = "Group " ++ jid.user)
      ∧ (hintedName conversation ≠ "" →
          GetChatNameFresh env jid conversation sender
            = hintedName conversation))
    ∧ (jid.server ≠ "g.us" →
      (jid.user ≠ "" → GetChatNameFresh env jid conversation sender ≠ "")
      ∧ (∀ f, env.contactFullName jid = some f → f ≠ "" →
          GetChatNameFresh env jid conversation sender = f)
      ∧ (env.contactFullName jid = none → sender ≠ "" →
          GetChatNameFresh env jid conversation sender = sender)
      ∧ (env.contactFullName jid = none → sender = "" →
          GetChatNameFresh env jid conversation sender = jid.user)) := by
  refine ⟨?_, ?_, ?_, ?_⟩
  · intro row hrow hname
    simp [GetChatName, hrow, hname]
  · intro hempty
    cases hlook : lookupChat s.chats chatJID with
    | none => simp [GetChatName, hlook]
    | some row =>
      have := hempty row hlook
      simp [GetChatName, hlook, this]
  · intro hg
    refine ⟨?_, ?_, ?_⟩
    · by_cases hh : hintedName conversation = ""
      · cases hgi : env.groupInfo jid with
        | none =>
          simp only [GetChatNameFresh, hg, hh, hgi, if_pos rfl, if_true]
          exact group_fallback_ne_empty jid.user
        | some g =>
          by_cases hgne : g = ""
          · simp only [GetChatNameFresh, hg, hh, hgi, hgne, if_pos rfl,
              if_true, ne_eq, not_true_eq_false, ite_false]
            exact group_fallback_ne_empty jid.user
          · simp [GetChatNameFresh, hg, hh, hgi, hgne]
      · simp [GetChatNameFresh, hg, hh]
    · intro hh hgi
      simp [GetChatNameFresh, hg, hh, hgi]
    · intro hh
      simp [GetChatNameFresh, hg, hh]
  · intro hg
    refine ⟨?_, ?_, ?_, ?_⟩
    · intro hu
      cases hcf : env.contactFullName jid with
      | none =>
        by_cases hs : sender = ""
        · simp [GetChatNameFresh, hg, hcf, hs, hu]
        · simp [GetChatNameFresh, hg, hcf, hs]
      | some f =>
        by_cases hf : f = ""
        · by_cases hs : sender = ""
          · simp [GetChatNameFresh, hg, hcf, hf, hs, hu]
          · simp [GetChatNameFresh, hg, hcf, hf, hs]
        · simp [GetChatNameFresh, hg, hcf, hf]
    · intro f hcf hf
      simp [GetChatNameFresh, hg, hcf, hf]
    · intro hcf hs
      simp [GetChatNameFresh, hg, hcf, hs]
    · intro hcf hs
      simp [GetChatNameFresh, hg, hcf, hs]

/-- Witness store for C5: the address "123@g.us" already has the stored
name "Signals". -/
def witnessEnvC5 : Env :=
  ⟨fun _ => some "LiveGroupName", fun _ => none, "me"⟩

/-- C5 witness: with a stored name present the hint is ignored; the same
theorem also yields the group fallback on a fresh address. -/
theorem c5_getChatName_priority_witness :
    GetChatName witnessEnvC5 witnessStoreC1 ⟨"123", "g.us"⟩ "123@g.us"
        (some ⟨some "HintName", none⟩) "555" = "Signals"
    ∧ GetChatNameFresh witnessEnvC5 ⟨"99", "g.us"⟩ none "" ≠ "" := by
  refine ⟨?_, ?_⟩
  · exact (c5_getChatName_priority witnessEnvC5 witnessStoreC1
      ⟨"123", "g.us"⟩ "123@g.us" (some ⟨some "HintName", none⟩) "555").1
      ⟨"123@g.us", "Signals", 5⟩ (by decide) (by decide)
  · exact ((c5_getChatName_priority witnessEnvC5 witnessStoreC1
      ⟨"99", "g.us"⟩ "99@g.us" none "").2.2.1 (by decide)).1

/-! ### Live ingestion (handleMessage, main.go:259-304; handleEvent,
main.go:681-724) -/

/-- events.Message, restricted to the fields the bridge reads:
msg.Info.ID, msg.Info.Chat, msg.Info.Sender, msg.Info.Timestamp,
msg.Info.IsFromMe and msg.Message. -/
structure MessageEvent where
  id : String
  chat : Jid
  sender : Jid
  timestamp : Timestamp
  isFromMe : Bool
  message : Option WaMsg
deriving DecidableEq, Repr

/-- handleMessage (main.go:259-304): resolve the chat name, upsert the
chat unconditionally with the event timestamp, then store the message
only when the extracted text is non-empty, always with media type
"text".  Storage errors are only logged (main.go:269-271, 293-294), so
the state after a failing upsert is the state the failing call left. -/
def handleMessage (env : Env) (s : MessageStore) (msg : MessageEvent) :
    MessageStore :=
  let chatJID := msg.chat.jidString
  let sender := msg.sender.user
  let name := GetChatName env s msg.chat chatJID none sender
  let s1 := StoreChat s chatJID name msg.timestamp
  let content := extractTextContent msg.message
  if content = "" then s1
  else (StoreMessage s1 msg.id chatJID sender content msg.timestamp
    msg.isFromMe "text").1

/-- The media-kind classification of handleEvent (main.go:698-707):
"image" / "video" / "audio" / "document" when the corresponding optional
payload is present, else "text".  The getters are nil-safe, so a nil
message classifies as "text". -/
def classifyMediaType (m : Option WaMsg) : String :=
  match m with
  | none => "text"
  | some w =>
    if w.imageMessage then "image"
    else if w.videoMessage then "video"
    else if w.audioMessage then "audio"
    else if w.documentMessage then "document"
    else "text"

/-- The events.Message branch of handleEvent (main.go:683-713): it opens
the same messages database (NewMessageStore, main.go:685) and calls only
StoreMessage — there is no StoreChat call on this path.  The sender here
is the full JID string (main.go:694), unlike handleMessage. -/
def handleEventMessage (s : MessageStore) (v : MessageEvent) :
    MessageStore :=
  let chatJID := v.chat.jidString
  let sender := v.sender.jidString
  let content := extractTextContent v.message
  let mediaType := classifyMediaType v.message
  (StoreMessage s v.id chatJID sender content v.timestamp v.isFromMe
    mediaType).1

/-- A live event carrying a caption-less image: extracted text is empty. -/
def imageOnlyEvent : MessageEvent :=
  ⟨"m3", ⟨"123", "g.us"⟩, ⟨"555", "s.whatsapp.net"⟩, 9, false,
    some ⟨none, none, true, false, false, false⟩⟩

/-- C3: the registered live handler (client.AddEventHandler(handleEvent),
main.go:393) does not upsert the chat at all: on an empty-text event it
leaves the store completely unchanged — in particular, starting from the
empty database no chats row for "123@g.us" is created, while the claim
says the chat row is refreshed with the event's timestamp.  (handleMessage
implements the claimed behaviour, but nothing invokes it.) -/
theorem c3_handleEvent_no_chat_upsert :
    handleEventMessage emptyStore imageOnlyEvent = emptyStore
    ∧ lookupChat (handleEventMessage emptyStore imageOnlyEvent).chats
        "123@g.us" = none := by
  constructor
  · rfl
  · rfl

/-- A store in which the chat "77@s.whatsapp.net" already exists (so the
foreign-key check passes for message inserts into it). -/
def storeWithBob : MessageStore :=
  ⟨[⟨"77@s.whatsapp.net", "Bob", 5⟩], []⟩

/-- A crafted live event whose payload sets both the plain-text field and
the image payload: extractTextContent returns "hi" while the classifier
returns "image". -/
def textAndImageEvent : MessageEvent :=
  ⟨"m9", ⟨"77", "s.whatsapp.net"⟩, ⟨"55", "s.whatsapp.net"⟩, 6, false,
    some ⟨some "hi", none, true, false, false, false⟩⟩

/-- C9 counterexample: handleEvent stores a message row whose media_type
is "image" when the payload carries both extractable text and an image
payload, so not every stored row carries the kind "text". -/
theorem c9_media_kind_counterexample :
    (handleEventMessage storeWithBob textAndImageEvent).messages
      = [⟨"m9", "77@s.whatsapp.net", "55@s.whatsapp.net", "hi", 6, false,
          "image"⟩] := by
  rfl

/-! ### Outbound gateway (startRESTServer, main.go:307-364) -/

/-- SendMessageRequest (main.go:211-214). -/
structure SendMessageRequest where
  recipient : String
  message : String
deriving DecidableEq, Repr

/-- The outcome of the /api/send handler that the claims observe: the
HTTP status code written and whether sendWhatsAppMessage was invoked. -/
structure SendHandlerResult where
  status : Nat
  sendAttempted : Bool
deriving DecidableEq, Repr

/-- The /api/send handler (main.go:309-352).  method is r.Method; body is
the JSON decode result (none models a decoding error).  Status codes:
405 Method Not Allowed, 400 Bad Request, 200 on success (the default
written by Encode), 500 when the send reports failure.  The send
capability is passed in as a function so the delegation itself stays
observable. -/
def handleApiSend (send : String → String → Bool × String)
    (method : String) (body : Option SendMessageRequest) :
    SendHandlerResult :=
  if method ≠ "POST" then ⟨405, false⟩
  else
    match body with
    | none => ⟨400, false⟩
    | some req =>
      if req.recipient = "" then ⟨400, false⟩
      else if req.message = "" then ⟨400, false⟩
      else
        let result := send req.recipient req.message
        ⟨if result.1 then 200 else 500, true⟩

/-- C8: a POST /send body with an empty recipient or an empty message is
answered with 400 and the session send is never attempted; when both
fields are non-empty the send is delegated. -/
theorem c8_send_requires_both_fields
    (send : String → String → Bool × String) (r m : String) :
    ((r = "" ∨ m = "") →
      handleApiSend send "POST" (some ⟨r, m⟩) = ⟨400, false⟩)
    ∧ (r ≠ "" → m ≠ "" →
      (handleApiSend send "POST" (some ⟨r, m⟩)).sendAttempted = true) := by
  constructor
  · rintro (hr | hm)
    · simp [handleApiSend, hr]
    · by_cases hr : r = ""
      · simp [handleApiSend, hr]
      · simp [handleApiSend, hr, hm]
  · intro hr hm
    simp [handleApiSend, hr, hm]

/-- A send capability that always succeeds, for witnesses. -/
def alwaysOkSend : String → String → Bool × String :=
  fun _ _ => (true, "ok")

/-- C8 witness: the spec's concrete scenario (empty recipient, message
"hi") yields 400 with no send attempted, and a fully populated body
delegates the send. -/
theorem c8_send_requires_both_fields_witness :
    handleApiSend alwaysOkSend "POST" (some ⟨"", "hi"⟩) = ⟨400, false⟩
    ∧ (handleApiSend alwaysOkSend "POST"
        (some ⟨"555", "hi"⟩)).sendAttempted = true := by
  constructor
  · exact (c8_send_requires_both_fields alwaysOkSend "" "hi").1
      (Or.inl rfl)
  · exact (c8_send_requires_both_fields alwaysOkSend "555" "hi").2
      (by decide) (by decide)

/-! ### History reconciliation (handleHistorySync, main.go:523-642) -/

/-- waProto.MessageKey, restricted to the fields the bridge reads
(main.go:591-610). -/
structure MsgKey where
  fromMe : Option Bool
  participant : Option String
  id : Option String
deriving DecidableEq, Repr

/-- waProto.WebMessageInfo: the envelope of one historical message.
GetMessageTimestamp() is a proto getter returning 0 when the field is
unset, so the timestamp is stored already defaulted. -/
structure WebMessageInfo where
  key : Option MsgKey
  messageTimestamp : Nat
  message : Option WaMsg
deriving DecidableEq, Repr

/-- waProto.HistorySyncMsg: carries an optional WebMessageInfo pointer
(msg.Message in the Go loop). -/
structure HistorySyncMsg where
  message : Option WebMessageInfo
deriving DecidableEq, Repr

/-- waProto.Conversation, restricted to the fields the bridge reads: ID,
the DisplayName/Name fields probed by GetChatName's reflection, and the
message list (whose entries are pointers and may be nil). -/
structure Conversation where
  id : Option String
  displayName : Option String
  name : Option String
  messages : List (Option HistorySyncMsg)
deriving DecidableEq, Repr

/-- Split a character list at its first \'@\', when there is one. -/
def breakAtSign : List Char → Option (List Char × List Char)
  | [] => none
  | c :: cs =>
    if c = '@' then some ([], cs)
    else
      match breakAtSign cs with
      | none => none
      | some (u, v) => some (c :: u, v)

/-- types.ParseJID, to the extent the bridge relies on it: an address
with no "@" parses to a bare-server JID with an empty user part, an
address with exactly one "@" splits into user and server, and anything
else is rejected.  (The real parser also validates agent/device suffixes;
none of the claims depends on those, only on success versus failure.) -/
def parseJID (s : String) : Option Jid :=
  match breakAtSign s.data with
  | none => some ⟨"", s⟩
  | some (u, rest) =>
    if rest.contains '@' then none
    else some ⟨⟨u⟩, ⟨rest⟩⟩

/-- The sender derivation of main.go:588-604: explicit from-me flag sends
the own account's user part, else a non-empty participant field, else the
chat's own user part.  Returns (sender, isFromMe). -/
def historySender (env : Env) (jid : Jid) (key : Option MsgKey) :
    String × Bool :=
  match key with
  | some k =>
    let isFromMe := k.fromMe.getD false
    if !isFromMe && (k.participant.getD "") ≠ "" then
      (k.participant.getD "", isFromMe)
    else if isFromMe then (env.ownUser, isFromMe)
    else (jid.user, isFromMe)
  | none => (jid.user, false)

/-- The body of the inner message loop of handleHistorySync
(main.go:565-637): skip nil envelopes, skip empty extracted text, skip a
zero timestamp, otherwise StoreMessage with the key's ID (or "" when the
key or its ID is absent) and media type "text". -/
def processHistoryMsg (env : Env) (jid : Jid) (chatJID : String)
    (s : MessageStore) (m : Option HistorySyncMsg) : MessageStore :=
  match m with
  | none => s
  | some hm =>
    match hm.message with
    | none => s
    | some w =>
      let content := extractTextContent w.message
      if content = "" then s
      else
        let sb := historySender env jid w.key
        let msgID := (w.key.bind (fun k => k.id)).getD ""
        if w.messageTimestamp ≠ 0 then
          (StoreMessage s msgID chatJID sb.1 content w.messageTimestamp
            sb.2 "text").1
        else s

/-- One iteration of the conversation loop of handleHistorySync
(main.go:527-639): skip a nil ID, skip an unparseable JID, resolve the
name (a pure read), and only when the first (most recent) message exists
and carries a non-zero timestamp: upsert the chat and run the message
loop over the whole list. -/
def processConversation (env : Env) (s : MessageStore)
    (conversation : Conversation) : MessageStore :=
  match conversation.id with
  | none => s
  | some chatJID =>
    match parseJID chatJID with
    | none => s
    | some jid =>
      let name := GetChatName env s jid chatJID
        (some ⟨conversation.displayName, conversation.name⟩) ""
      match conversation.messages with
      | [] => s
      | latest :: _ =>
        match latest with
        | none => s
        | some latestMsg =>
          match latestMsg.message with
          | none => s
          | some lw =>
            if lw.messageTimestamp ≠ 0 then
              let s1 := StoreChat s chatJID name lw.messageTimestamp
              conversation.messages.foldl (processHistoryMsg env jid chatJID) s1
            else s

/-- handleHistorySync (main.go:523-642): fold the conversation loop over
the batch. -/
def handleHistorySync (env : Env) (s : MessageStore)
    (conversations : List Conversation) : MessageStore :=
  conversations.foldl (processConversation env) s

/-- The skip condition of main.go:549-560 for a conversation's most
recent message: the first list entry exists but is nil, or its envelope
is nil, or its timestamp getter returns 0. -/
def latestTimestampMissing (c : Conversation) : Bool :=
  match c.messages with
  | [] => false
  | latest :: _ =>
    match latest with
    | none => true
    | some latestMsg =>
      match latestMsg.message with
      | none => true
      | some lw => lw.messageTimestamp == 0

theorem filter_not_append_find {α : Type} (p : α → Bool) (l : List α)
    (a : α) (ha : p a = true) :
    ((l.filter (fun x => !(p x))) ++ [a]).find? p = some a := by
  induction l with
  | nil => simp [List.find?, ha]
  | cons x xs ih =>
    by_cases hx : p x = true
    · simpa [List.filter, hx] using ih
    · simp only [Bool.not_eq_true] at hx
      simp [List.filter, hx, List.find?, ih]

/-- After StoreChat, the chats row for the stored jid is exactly the
stored row. -/
theorem lookupChat_after_storeChat (s : MessageStore) (j n : String)
    (t : Timestamp) :
    lookupChat (StoreChat s j n t).chats j = some ⟨j, n, t⟩ := by
  unfold lookupChat StoreChat
  exact filter_not_append_find (fun r => r.jid == j) s.chats ⟨j, n, t⟩
    (by simp)

/-- StoreMessage never touches the chats table. -/
theorem storeMessage_chats (s : MessageStore)
    (id chatJID sender content : String) (timestamp : Timestamp)
    (isFromMe : Bool) (mediaType : String) :
    (StoreMessage s id chatJID sender content timestamp isFromMe
      mediaType).1.chats = s.chats := by
  unfold StoreMessage
  by_cases hc : content = ""
  · simp [hc]
  · by_cases hl : (lookupChat s.chats chatJID).isSome
    · simp [hc, hl]
    · simp [hc, hl]

/-- C6: a conversation whose most recent message lacks a non-zero
timestamp is skipped before the chat upsert (main.go:556-560 hits
continue before the StoreChat of main.go:562), so the store is unchanged
for that conversation and the rest of the batch proceeds as if the
conversation were absent. -/
theorem c6_sync_skips_conv_without_timestamp (env : Env)
    (s : MessageStore) (conv : Conversation) (rest : List Conversation)
    (h : latestTimestampMissing conv = true) :
    processConversation env s conv = s
    ∧ handleHistorySync env s (conv :: rest)
        = handleHistorySync env s rest := by
  have hskip : processConversation env s conv = s := by
    unfold processConversation
    cases hid : conv.id with
    | none => rfl
    | some chatJID =>
      cases hp : parseJID chatJID with
      | none => simp [hp]
      | some jid =>
        unfold latestTimestampMissing at h
        cases hm : conv.messages with
        | nil => rw [hm] at h; cases h
        | cons latest restMsgs =>
          rw [hm] at h
          cases latest with
          | none => simp [hp]
          | some latestMsg =>
            simp only at h
            cases hlm : latestMsg.message with
            | none => simp [hp, hlm]
            | some lw =>
              rw [hlm] at h
              simp only at h
              have hts : lw.messageTimestamp = 0 := by
                simpa using h
              simp [hp, hlm, hts]
  refine ⟨hskip, ?_⟩
  simp [handleHistorySync, hskip]

/-- A shared external environment with no group or contact metadata. -/
def plainEnv : Env := ⟨fun _ => none, fun _ => none, "me"⟩

/-- A history-sync conversation whose most recent (first-listed) message
has timestamp 0. -/
def convNoTimestamp : Conversation :=
  ⟨some "42@g.us", some "Team", none,
    [some ⟨some ⟨none, 0, some ⟨some "late text", none, false, false,
      false, false⟩⟩⟩]⟩

/-- C6 witness: the spec's concrete scenario — a batch whose conversation
has a timestamp-less latest message leaves no chat row behind. -/
theorem c6_sync_skips_conv_without_timestamp_witness :
    latestTimestampMissing convNoTimestamp = true
    ∧ processConversation plainEnv emptyStore convNoTimestamp = emptyStore
    ∧ handleHistorySync plainEnv emptyStore [convNoTimestamp]
        = handleHistorySync plainEnv emptyStore [] := by
  refine ⟨by decide, ?_⟩
  exact c6_sync_skips_conv_without_timestamp plainEnv emptyStore
    convNoTimestamp [] (by decide)

/-- C10: two history-sync envelopes in the same conversation that both
lack a key ID (main.go:607-610 leaves msgID as "") are stored under the
shared primary key ("", chatJID): after processing, exactly one messages
row with that key survives and it carries the later-processed envelope's
content — the later overwrites the earlier. -/
theorem c10_idless_history_messages_collide (env : Env) (s : MessageStore)
    (c : String) (jid : Jid) (dn nm : Option String)
    (k1 k2 : Option MsgKey) (w1 w2 : Option WaMsg) (ts1 ts2 : Nat)
    (hjid : parseJID c = some jid)
    (hk1 : k1.bind (fun k => k.id) = none)
    (hk2 : k2.bind (fun k => k.id) = none)
    (ht1 : extractTextContent w1 ≠ "")
    (ht2 : extractTextContent w2 ≠ "")
    (hts1 : ts1 ≠ 0) (hts2 : ts2 ≠ 0) :
    (handleHistorySync env s
        [⟨some c, dn, nm,
          [some ⟨some ⟨k1, ts1, w1⟩⟩, some ⟨some ⟨k2, ts2, w2⟩⟩]⟩]).messages.filter
        (msgKeyIs "" c)
      = [⟨"", c,
          (if (historySender env jid k2).1 = "" then "unknown"
            else (historySender env jid k2).1),
          extractTextContent w2, ts2, (historySender env jid k2).2,
          "text"⟩] := by
  have hlook : ∀ n,
      (lookupChat (StoreChat s c n ts1).chats c).isSome = true := by
    intro n
    rw [lookupChat_after_storeChat]
    rfl
  simp only [handleHistorySync, List.foldl, processConversation, hjid,
    processHistoryMsg, hk1, hk2, Option.getD, ne_eq, hts1, hts2, ht1,
    ht2, not_false_eq_true, if_true, ite_false, if_neg, ite_not]
  simp only [StoreMessage, ht1, ht2, ite_false, if_neg, hlook, if_true,
    ne_eq]
  simp only [List.filter_append, ite_true]
  have hkey2 : msgKeyIs "" c
      ⟨"", c,
        (if (historySender env jid k2).1 = "" then "unknown"
          else (historySender env jid k2).1),
        extractTextContent w2, ts2, (historySender env jid k2).2,
        "text"⟩ = true := by
    simp [msgKeyIs]
  simp [hkey2, filter_not_then_filter]

/-- C10 witness: a conversation with two key-less envelopes ("one" at
tick 5, then "two" at tick 3) ends with the single row ("", chat)
carrying "two". -/
theorem c10_idless_history_messages_collide_witness :
    (handleHistorySync plainEnv emptyStore
        [⟨some "123@g.us", none, none,
          [some ⟨some ⟨none, 5, some ⟨some "one", none, false, false,
            false, false⟩⟩⟩,
           some ⟨some ⟨none, 3, some ⟨some "two", none, false, false,
            false, false⟩⟩⟩]⟩]).messages.filter (msgKeyIs "" "123@g.us")
      = [⟨"", "123@g.us", "123", "two", 3, false, "text"⟩] := by
  have h := c10_idless_history_messages_collide plainEnv emptyStore
    "123@g.us" ⟨"123", "g.us"⟩ none none none none
    (some ⟨some "one", none, false, false, false, false⟩)
    (some ⟨some "two", none, false, false, false, false⟩) 5 3
    (by decide) rfl rfl (by decide) (by decide) (by decide) (by decide)
  simpa using h

/-! ### C2: every message row is preceded by a chat upsert -/

/-- All the operations of the bridge that touch store/messages.db: the
two raw store writes, the two live handlers and the history
reconciliation handler. -/
inductive BridgeOp where
  | storeChat (jid name : String) (t : Timestamp)
  | storeMessage (id chatJID sender content : String) (t : Timestamp)
      (isFromMe : Bool) (mediaType : String)
  | liveMessage (env : Env) (msg : MessageEvent)
  | liveEvent (v : MessageEvent)
  | historySync (env : Env) (batch : List Conversation)

/-- Run one bridge operation against the persistent state. -/
def applyOp (s : MessageStore) : BridgeOp → MessageStore
  | .storeChat jid name t => StoreChat s jid name t
  | .storeMessage id chatJID sender content t isFromMe mediaType =>
      (StoreMessage s id chatJID sender content t isFromMe mediaType).1
  | .liveMessage env msg => handleMessage env s msg
  | .liveEvent v => handleEventMessage s v
  | .historySync env batch => handleHistorySync env s batch

/-- Any interleaving of bridge operations, from the freshly created
database. -/
def runOps (ops : List BridgeOp) : MessageStore :=
  ops.foldl applyOp emptyStore

/-- The C2 invariant: every messages row references a chats row — since
only StoreChat ever inserts into chats, a chat upsert for that address
must already have happened. -/
def everyMessageHasChat (s : MessageStore) : Prop :=
  ∀ m ∈ s.messages, ∃ c ∈ s.chats, c.jid = m.chatJid

theorem everyMessageHasChat_storeChat (s : MessageStore)
    (jid name : String) (t : Timestamp) (h : everyMessageHasChat s) :
    everyMessageHasChat (StoreChat s jid name t) := by
  intro m hm
  obtain ⟨c, hc, hcj⟩ := h m hm
  by_cases hj : c.jid = jid
  · exact ⟨⟨jid, name, t⟩, by simp [StoreChat], by simp [← hcj, hj]⟩
  · refine ⟨c, ?_, hcj⟩
    simp only [StoreChat, List.mem_append, List.mem_filter]
    exact Or.inl ⟨hc, by simp [hj]⟩

theorem everyMessageHasChat_storeMessage (s : MessageStore)
    (id chatJID sender content : String) (t : Timestamp) (isFromMe : Bool)
    (mediaType : String) (h : everyMessageHasChat s) :
    everyMessageHasChat
      (StoreMessage s id chatJID sender content t isFromMe mediaType).1 := by
  unfold StoreMessage
  by_cases hc : content = ""
  · simpa [hc] using h
  · by_cases hl : (lookupChat s.chats chatJID).isSome
    · simp only [hc, hl, ite_false, if_neg, ite_true, if_pos]
      intro m hm
      simp only [List.mem_append, List.mem_filter, List.mem_singleton]
        at hm
      rcases hm with ⟨hm, _⟩ | hm
      · exact h m hm
      · subst hm
        obtain ⟨row, hfind⟩ := Option.isSome_iff_exists.mp hl
        refine ⟨row, List.mem_of_find?_eq_some hfind, ?_⟩
        have := List.find?_some hfind
        simpa using this
    · simpa [hc, hl] using h

theorem everyMessageHasChat_foldl {β : Type}
    (f : MessageStore → β → MessageStore)
    (hf : ∀ s b, everyMessageHasChat s → everyMessageHasChat (f s b))
    (l : List β) (s : MessageStore) (h : everyMessageHasChat s) :
    everyMessageHasChat (l.foldl f s) := by
  induction l generalizing s with
  | nil => exact h
  | cons x xs ih => exact ih (f s x) (hf s x h)

theorem everyMessageHasChat_handleMessage (env : Env) (s : MessageStore)
    (msg : MessageEvent) (h : everyMessageHasChat s) :
    everyMessageHasChat (handleMessage env s msg) := by
  unfold handleMessage
  by_cases hc : extractTextContent msg.message = ""
  · simp only [hc, ite_true, if_pos]
    exact everyMessageHasChat_storeChat _ _ _ _ h
  · simp only [hc, ite_false, if_neg]
    exact everyMessageHasChat_storeMessage _ _ _ _ _ _ _ _
      (everyMessageHasChat_storeChat _ _ _ _ h)

theorem everyMessageHasChat_handleEventMessage (s : MessageStore)
    (v : MessageEvent) (h : everyMessageHasChat s) :
    everyMessageHasChat (handleEventMessage s v) :=
  everyMessageHasChat_storeMessage _ _ _ _ _ _ _ _ h

theorem everyMessageHasChat_processHistoryMsg (env : Env) (jid : Jid)
    (chatJID : String) (s : MessageStore) (m : Option HistorySyncMsg)
    (h : everyMessageHasChat s) :
    everyMessageHasChat (processHistoryMsg env jid chatJID s m) := by
  rcases m with _ | ⟨_ | ⟨k, ts, w⟩⟩
  · exact h
  · exact h
  · by_cases hc : extractTextContent w = ""
    · simpa [processHistoryMsg, hc] using h
    · by_cases hts : ts = 0
      · simpa [processHistoryMsg, hc, hts] using h
      · have hred : processHistoryMsg env jid chatJID s
            (some ⟨some ⟨k, ts, w⟩⟩)
            = (StoreMessage s ((k.bind fun kk => kk.id).getD "") chatJID
                (historySender env jid k).1 (extractTextContent w) ts
                (historySender env jid k).2 "text").1 := by
          simp [processHistoryMsg, hc, hts]
        rw [hred]
        exact everyMessageHasChat_storeMessage _ _ _ _ _ _ _ _ h

theorem everyMessageHasChat_processConversation (env : Env)
    (s : MessageStore) (conv : Conversation) (h : everyMessageHasChat s) :
    everyMessageHasChat (processConversation env s conv) := by
  unfold processConversation
  cases hid : conv.id with
  | none => exact h
  | some chatJID =>
    cases hp : parseJID chatJID with
    | none => simpa [hp] using h
    | some jid =>
      cases hm : conv.messages with
      | nil => simpa [hp] using h
      | cons latest restMsgs =>
        cases latest with
        | none => simpa [hp] using h
        | some latestMsg =>
          cases hlm : latestMsg.message with
          | none => simpa [hp, hlm] using h
          | some lw =>
            by_cases hts : lw.messageTimestamp ≠ 0
            · simp only [hp, hlm]
              rw [if_pos hts]
              exact everyMessageHasChat_foldl _
                (fun s' m' => everyMessageHasChat_processHistoryMsg env
                  jid chatJID s' m') _ _
                (everyMessageHasChat_storeChat _ _ _ _ h)
            · simpa [hp, hlm, hts] using h

theorem everyMessageHasChat_applyOp (s : MessageStore) (op : BridgeOp)
    (h : everyMessageHasChat s) : everyMessageHasChat (applyOp s op) := by
  cases op with
  | storeChat jid name t => exact everyMessageHasChat_storeChat _ _ _ _ h
  | storeMessage id chatJID sender content t isFromMe mediaType =>
    exact everyMessageHasChat_storeMessage _ _ _ _ _ _ _ _ h
  | liveMessage env msg => exact everyMessageHasChat_handleMessage _ _ _ h
  | liveEvent v => exact everyMessageHasChat_handleEventMessage _ _ h
  | historySync env batch =>
    exact everyMessageHasChat_foldl _
      (fun s' c' => everyMessageHasChat_processConversation env s' c') _ _ h

/-- C2: in every execution — any interleaving of store writes, live
handlers and history syncs starting from the fresh database — every
messages row references an existing chats row; as chats rows are created
only by the chat upsert (StoreChat), no execution holds a message row
whose chat upsert has not already happened.  (On the handleMessage and
handleHistorySync paths the upsert happens in the same handler; on the
handleEvent path it is the _foreign_keys=on constraint of main.go:50/72
that rejects the write when the chat row does not yet exist.) -/
theorem c2_chat_upsert_precedes_message (ops : List BridgeOp) :
    ∀ m ∈ (runOps ops).messages,
      ∃ c ∈ (runOps ops).chats, c.jid = m.chatJid := by
  have : everyMessageHasChat (runOps ops) := by
    unfold runOps
    refine everyMessageHasChat_foldl applyOp
      (fun s' op' => everyMessageHasChat_applyOp s' op') ops emptyStore ?_
    intro m hm
    cases hm
  exact this

/-- Concrete execution for the C2 witness: a chat upsert followed by a
message write. -/
def opsC2 : List BridgeOp :=
  [.storeChat "123@g.us" "Signals" 1,
   .storeMessage "m1" "123@g.us" "555" "hello" 2 false "text"]

/-- C2 witness: in the concrete execution the stored message's chat row
exists. -/
theorem c2_chat_upsert_precedes_message_witness :
    ∃ c ∈ (runOps opsC2).chats, c.jid = "123@g.us" :=
  c2_chat_upsert_precedes_message opsC2
    ⟨"m1", "123@g.us", "555", "hello", 2, false, "text"⟩ (by decide)

/-! ### C9: which media kinds ever reach the messages table -/

/-- Rows added by one StoreMessage call carry that call's media type. -/
theorem storeMessage_rows_mediaType (s : MessageStore)
    (id chatJID sender content : String) (t : Timestamp) (isFromMe : Bool)
    (mediaType : String) :
    ∀ r ∈ (StoreMessage s id chatJID sender content t isFromMe
        mediaType).1.messages,
      r ∈ s.messages ∨ r.mediaType = mediaType := by
  unfold StoreMessage
  by_cases hc : content = ""
  · simp only [hc, ite_true, if_pos]
    exact fun r hr => Or.inl hr
  · by_cases hl : (lookupChat s.chats chatJID).isSome
    · simp only [hc, hl, ite_false, if_neg, ite_true, if_pos]
      intro r hr
      simp only [List.mem_append, List.mem_filter, List.mem_singleton]
        at hr
      rcases hr with ⟨hr, _⟩ | hr
      · exact Or.inl hr
      · subst hr
        exact Or.inr rfl
    · simp only [hc, hl, ite_false, if_neg]
      exact fun r hr => Or.inl hr

/-- A state transformer that only ever appends "text" message rows. -/
def onlyAddsTextRows (f : MessageStore → MessageStore) : Prop :=
  ∀ s r, r ∈ (f s).messages → r ∈ s.messages ∨ r.mediaType = "text"

theorem onlyAddsTextRows_foldl {β : Type}
    (f : MessageStore → β → MessageStore)
    (hf : ∀ b, onlyAddsTextRows (fun s => f s b)) (l : List β) :
    onlyAddsTextRows (fun s => l.foldl f s) := by
  induction l with
  | nil => intro s r hr; exact Or.inl hr
  | cons x xs ih =>
    intro s r hr
    rcases ih (f s x) r hr with hr' | hr'
    · exact hf x s r hr'
    · exact Or.inr hr'

theorem onlyAddsTextRows_processHistoryMsg (env : Env) (jid : Jid)
    (chatJID : String) (m : Option HistorySyncMsg) :
    onlyAddsTextRows (fun s => processHistoryMsg env jid chatJID s m) := by
  intro s r hr
  have hr2 : r ∈ (processHistoryMsg env jid chatJID s m).messages := hr
  clear hr
  rcases m with _ | ⟨_ | ⟨k, ts, w⟩⟩
  · exact Or.inl hr2
  · exact Or.inl hr2
  · by_cases hc : extractTextContent w = ""
    · rw [show processHistoryMsg env jid chatJID s (some ⟨some ⟨k, ts, w⟩⟩)
          = s by simp [processHistoryMsg, hc]] at hr2
      exact Or.inl hr2
    · by_cases hts : ts = 0
      · rw [show processHistoryMsg env jid chatJID s
            (some ⟨some ⟨k, ts, w⟩⟩) = s by
              simp [processHistoryMsg, hc, hts]] at hr2
        exact Or.inl hr2
      · rw [show processHistoryMsg env jid chatJID s
            (some ⟨some ⟨k, ts, w⟩⟩)
            = (StoreMessage s ((k.bind fun kk => kk.id).getD "") chatJID
                (historySender env jid k).1 (extractTextContent w) ts
                (historySender env jid k).2 "text").1 by
              simp [processHistoryMsg, hc, hts]] at hr2
        exact storeMessage_rows_mediaType _ _ _ _ _ _ _ _ r hr2

theorem onlyAddsTextRows_processConversation (env : Env)
    (conv : Conversation) :
    onlyAddsTextRows (fun s => processConversation env s conv) := by
  rcases conv with ⟨cid, dn, nm, msgs⟩
  intro s r hr
  have hr2 : r ∈ (processConversation env s ⟨cid, dn, nm, msgs⟩).messages :=
    hr
  clear hr
  rcases cid with _ | chatJID
  · exact Or.inl hr2
  · cases hp : parseJID chatJID with
    | none =>
      rw [show processConversation env s ⟨some chatJID, dn, nm, msgs⟩ = s
        by unfold processConversation; simp [hp]] at hr2
      exact Or.inl hr2
    | some jid =>
      rcases msgs with _ | ⟨latest, restMsgs⟩
      · rw [show processConversation env s ⟨some chatJID, dn, nm, []⟩ = s
          by unfold processConversation; simp [hp]] at hr2
        exact Or.inl hr2
      · rcases latest with _ | ⟨_ | ⟨lk, lts, lw⟩⟩
        · rw [show processConversation env s
              ⟨some chatJID, dn, nm, none :: restMsgs⟩ = s
            by unfold processConversation; simp [hp]] at hr2
          exact Or.inl hr2
        · rw [show processConversation env s
              ⟨some chatJID, dn, nm, some ⟨none⟩ :: restMsgs⟩ = s
            by unfold processConversation; simp [hp]] at hr2
          exact Or.inl hr2
        · by_cases hts : lts = 0
          · rw [show processConversation env s
                ⟨some chatJID, dn, nm,
                  some ⟨some ⟨lk, lts, lw⟩⟩ :: restMsgs⟩ = s
              by unfold processConversation; simp [hp, hts]] at hr2
            exact Or.inl hr2
          · rw [show processConversation env s
                ⟨some chatJID, dn, nm,
                  some ⟨some ⟨lk, lts, lw⟩⟩ :: restMsgs⟩
                = List.foldl (processHistoryMsg env jid chatJID)
                    (StoreChat s chatJID
                      (GetChatName env s jid chatJID (some ⟨dn, nm⟩) "")
                      lts)
                    (some ⟨some ⟨lk, lts, lw⟩⟩ :: restMsgs)
              by unfold processConversation; simp [hp, hts]] at hr2
            rcases onlyAddsTextRows_foldl _
                (fun m' => onlyAddsTextRows_processHistoryMsg env jid
                  chatJID m') (some ⟨some ⟨lk, lts, lw⟩⟩ :: restMsgs)
                _ r hr2 with h1 | h1
            · exact Or.inl h1
            · exact Or.inr h1

/-- C9 (amended): every message row written by handleMessage or by the
history reconciliation carries the content-kind "text"; a row written by
handleEvent carries "text" whenever its payload sets no media variant.
(When a payload carries both extractable text and a media variant,
handleEvent stores the classified media kind — see the counterexample.) -/
theorem c9_stored_rows_media_kind (env : Env) (s : MessageStore)
    (evt : MessageEvent) (convs : List Conversation) :
    (∀ r ∈ (handleMessage env s evt).messages,
      r ∈ s.messages ∨ r.mediaType = "text")
    ∧ (∀ r ∈ (handleHistorySync env s convs).messages,
      r ∈ s.messages ∨ r.mediaType = "text")
    ∧ (classifyMediaType evt.message = "text" →
      ∀ r ∈ (handleEventMessage s evt).messages,
        r ∈ s.messages ∨ r.mediaType = "text") := by
  refine ⟨?_, ?_, ?_⟩
  · intro r hr
    unfold handleMessage at hr
    by_cases hc : extractTextContent evt.message = ""
    · rw [if_pos hc] at hr
      exact Or.inl hr
    · rw [if_neg hc] at hr
      rcases storeMessage_rows_mediaType _ _ _ _ _ _ _ _ r hr with
        hr' | hr'
      · exact Or.inl hr'
      · exact Or.inr hr'
  · intro r hr
    exact onlyAddsTextRows_foldl _
      (fun c' => onlyAddsTextRows_processConversation env c') convs s r hr
  · intro hcl r hr
    unfold handleEventMessage at hr
    rw [hcl] at hr
    exact storeMessage_rows_mediaType _ _ _ _ _ _ _ _ r hr

/-- A plain text live event for the C9 witness. -/
def plainTextEvent : MessageEvent :=
  ⟨"m1", ⟨"77", "s.whatsapp.net"⟩, ⟨"55", "s.whatsapp.net"⟩, 6, false,
    some ⟨some "hi", none, false, false, false, false⟩⟩

/-- C9 witness: the row handleEvent stores for a plain text event carries
the kind "text". -/
theorem c9_stored_rows_media_kind_witness :
    (⟨"m1", "77@s.whatsapp.net", "55@s.whatsapp.net", "hi", 6, false,
        "text"⟩ : MsgRow) ∈ storeWithBob.messages
    ∨ (⟨"m1", "77@s.whatsapp.net", "55@s.whatsapp.net", "hi", 6, false,
        "text"⟩ : MsgRow).mediaType = "text" :=
  (c9_stored_rows_media_kind plainEnv storeWithBob plainTextEvent []).2.2
    (by decide)
    ⟨"m1", "77@s.whatsapp.net", "55@s.whatsapp.net", "hi", 6, false,
      "text"⟩ (by decide)

/-! ### C7: GetChats (main.go:159-185) -/

/-- Insert a row into a list that is already sorted by descending
last_message_time. -/
def insertDesc (r : ChatRow) : List ChatRow → List ChatRow
  | [] => [r]
  | x :: xs =>
    if r.lastMessageTime ≤ x.lastMessageTime then x :: insertDesc r xs
    else r :: x :: xs

/-- The result set of SELECT jid, last_message_time FROM chats ORDER BY
last_message_time DESC (main.go:160): some permutation of the table
sorted by descending timestamp (SQLite fixes no order among ties;
insertion sort realises one admissible order). -/
def sortChatsDesc (l : List ChatRow) : List ChatRow :=
  l.foldr insertDesc []

/-- The ordered row scan GetChats iterates over. -/
def GetChatsRows (s : MessageStore) : List ChatRow :=
  sortChatsDesc s.chats

/-- The loop of main.go:167-182: chats[jid] = lastMessageTime row by row.
A Go map carries no iteration order, so it is modelled as a lookup
function; a later row with the same jid overwrites an earlier one.  (The
timestamp parse of main.go:176 always succeeds on rows this program
wrote, since they were formatted with the same fixed layout.) -/
def buildChatsMap (rows : List ChatRow) : String → Option Timestamp :=
  rows.foldl
    (fun m r => fun j => if j = r.jid then some r.lastMessageTime else m j)
    (fun _ => none)

/-- MessageStore.GetChats (main.go:159-185): the map built from the
ordered row scan. -/
def GetChats (s : MessageStore) : String → Option Timestamp :=
  buildChatsMap (GetChatsRows s)

/-- Sorted by descending last-activity. -/
def DescSorted (l : List ChatRow) : Prop :=
  l.Pairwise (fun a b => b.lastMessageTime ≤ a.lastMessageTime)

theorem mem_insertDesc (r a : ChatRow) (l : List ChatRow) :
    a ∈ insertDesc r l ↔ a = r ∨ a ∈ l := by
  induction l with
  | nil => simp [insertDesc]
  | cons x xs ih =>
    by_cases h : r.lastMessageTime ≤ x.lastMessageTime
    · simp only [insertDesc, h, ite_true, if_pos, List.mem_cons, ih]
      tauto
    · simp only [insertDesc, h, ite_false, if_neg, List.mem_cons]

theorem insertDesc_sorted (r : ChatRow) (l : List ChatRow)
    (h : DescSorted l) : DescSorted (insertDesc r l) := by
  induction l with
  | nil => simp [insertDesc, DescSorted]
  | cons x xs ih =>
    rcases List.pairwise_cons.mp h with ⟨hx, hxs⟩
    by_cases hle : r.lastMessageTime ≤ x.lastMessageTime
    · simp only [insertDesc, hle, ite_true, if_pos]
      refine List.pairwise_cons.mpr ⟨?_, ih hxs⟩
      intro b hb
      rcases (mem_insertDesc r b xs).mp hb with rfl | hb2
      · exact hle
      · exact hx b hb2
    · simp only [insertDesc, hle, ite_false, if_neg]
      refine List.pairwise_cons.mpr ⟨?_, h⟩
      intro b hb
      have hxr : x.lastMessageTime ≤ r.lastMessageTime :=
        le_of_lt (lt_of_not_le hle)
      rcases List.mem_cons.mp hb with rfl | hb2
      · exact hxr
      · exact le_trans (hx b hb2) hxr

theorem sortChatsDesc_sorted (l : List ChatRow) :
    DescSorted (sortChatsDesc l) := by
  induction l with
  | nil => exact List.Pairwise.nil
  | cons x xs ih => exact insertDesc_sorted x _ ih

theorem mem_sortChatsDesc (a : ChatRow) (l : List ChatRow) :
    a ∈ sortChatsDesc l ↔ a ∈ l := by
  induction l with
  | nil => simp [sortChatsDesc]
  | cons x xs ih =>
    show a ∈ insertDesc x (sortChatsDesc xs) ↔ _
    rw [mem_insertDesc]
    simp [ih]

/-- Evaluating the map-building fold at one key is the "last matching row
wins" fold over the rows. -/
theorem buildChatsMap_apply (rows : List ChatRow)
    (m : String → Option Timestamp) (j : String) :
    (rows.foldl
      (fun m r => fun j2 =>
        if j2 = r.jid then some r.lastMessageTime else m j2) m) j
      = rows.foldl
          (fun acc r =>
            if j = r.jid then some r.lastMessageTime else acc) (m j) := by
  induction rows generalizing m with
  | nil => rfl
  | cons x xs ih =>
    simp only [List.foldl]
    rw [ih]

theorem lastRowWins_some (j : String) (rows : List ChatRow) :
    ∀ (acc : Option Timestamp) (t : Timestamp),
      rows.foldl
        (fun acc r =>
          if j = r.jid then some r.lastMessageTime else acc) acc = some t →
      (∃ r ∈ rows, r.jid = j ∧ r.lastMessageTime = t) ∨ acc = some t := by
  induction rows with
  | nil => intro acc t h; exact Or.inr h
  | cons x xs ih =>
    intro acc t h
    rcases ih _ t h with ⟨r, hr, hrj, hrt⟩ | hacc
    · exact Or.inl ⟨r, List.mem_cons_of_mem x hr, hrj, hrt⟩
    · by_cases hj : j = x.jid
      · simp only [if_pos hj] at hacc
        exact Or.inl ⟨x, List.mem_cons_self x xs, hj.symm,
          (Option.some_inj.mp hacc)⟩
      · simp only [if_neg hj] at hacc
        exact Or.inr hacc

theorem lastRowWins_isSome (j : String) (rows : List ChatRow) :
    ∀ acc : Option Timestamp,
      (∃ r ∈ rows, r.jid = j) ∨ acc.isSome →
      (rows.foldl
        (fun acc r =>
          if j = r.jid then some r.lastMessageTime else acc) acc).isSome := by
  induction rows with
  | nil =>
    intro acc h
    rcases h with ⟨r, hr, _⟩ | h
    · cases hr
    · exact h
  | cons x xs ih =>
    intro acc h
    rcases h with ⟨r, hr, hrj⟩ | h
    · rcases List.mem_cons.mp hr with rfl | hr2
      · refine ih _ (Or.inr ?_)
        simp only [if_pos hrj.symm]
        rfl
      · exact ih _ (Or.inl ⟨r, hr2, hrj⟩)
    · refine ih _ (Or.inr ?_)
      by_cases hj : j = x.jid
      · simp only [if_pos hj]
        rfl
      · simp only [if_neg hj]
        exact h

/-- C7 (amended): the row scan behind GetChats is ordered by descending
last-activity and enumerates exactly the chats table, and the returned
map contains exactly the stored chats with their timestamps; but the map
itself is unordered — the descending order is a property of the internal
scan only, not of the returned value (see the counterexample). -/
theorem c7_getChats_content (s : MessageStore) :
    DescSorted (GetChatsRows s)
    ∧ (∀ r, r ∈ GetChatsRows s ↔ r ∈ s.chats)
    ∧ (∀ jid t, GetChats s jid = some t →
        ∃ r ∈ s.chats, r.jid = jid ∧ r.lastMessageTime = t)
    ∧ (∀ jid, (∃ r ∈ s.chats, r.jid = jid) → (GetChats s jid).isSome) := by
  refine ⟨sortChatsDesc_sorted s.chats,
    fun r => mem_sortChatsDesc r s.chats, ?_, ?_⟩
  · intro jid t h
    rw [show GetChats s jid
        = (GetChatsRows s).foldl
            (fun acc r =>
              if jid = r.jid then some r.lastMessageTime else acc) none
      from buildChatsMap_apply (GetChatsRows s) (fun _ => none) jid] at h
    rcases lastRowWins_some jid (GetChatsRows s) none t h with
      ⟨r, hr, hrj, hrt⟩ | habs
    · exact ⟨r, (mem_sortChatsDesc r s.chats).mp hr, hrj, hrt⟩
    · cases habs
  · intro jid ⟨r, hr, hrj⟩
    rw [show GetChats s jid
        = (GetChatsRows s).foldl
            (fun acc r =>
              if jid = r.jid then some r.lastMessageTime else acc) none
      from buildChatsMap_apply (GetChatsRows s) (fun _ => none) jid]
    exact lastRowWins_isSome jid (GetChatsRows s) none
      (Or.inl ⟨r, (mem_sortChatsDesc r s.chats).mpr hr, hrj⟩)

/-- A two-chat table: "a@x" last active at tick 1, "b@x" at tick 2. -/
def twoChatStore : MessageStore :=
  ⟨[⟨"a@x", "A", 1⟩, ⟨"b@x", "B", 2⟩], []⟩

/-- C7 witness: on the two-chat store the map resolves "b@x" to its
stored timestamp. -/
theorem c7_getChats_content_witness :
    ∃ r ∈ twoChatStore.chats, r.jid = "b@x" ∧ r.lastMessageTime = 2 :=
  (c7_getChats_content twoChatStore).2.2.1 "b@x" 2 (by decide)

/-- C7 counterexample: the value GetChats returns carries no order.  On
the two-chat store the internal scan is the descending [b, a], yet the
returned map is exactly the map built from the ascending enumeration
[a, b] as well — so "returns all chats ordered by last-activity
descending" is false of the function's result (a Go map): only the
discarded scan order is descending. -/
theorem c7_getChats_order_counterexample :
    GetChatsRows twoChatStore = [⟨"b@x", "B", 2⟩, ⟨"a@x", "A", 1⟩]
    ∧ GetChats twoChatStore
        = buildChatsMap [⟨"a@x", "A", 1⟩, ⟨"b@x", "B", 2⟩] := by
  refine ⟨by decide, ?_⟩
  funext j
  show buildChatsMap (GetChatsRows twoChatStore) j = _
  rw [show GetChatsRows twoChatStore
      = [⟨"b@x", "B", 2⟩, ⟨"a@x", "A", 1⟩] by decide]
  simp only [buildChatsMap, List.foldl]
  by_cases ha : j = "a@x"
  · rw [if_pos ha, if_neg (by rw [ha]; decide), if_pos ha]
  · rw [if_neg ha, if_neg ha]
